import Mathlib

/-!
Verification development for the response-generation glue of the
starpig1129/discord-LLM-bot repository (files `gpt/gpt_response_gen.py`,
`gpt/sendmessage.py`, `gpt/vqa.py`).

The Python source is shallowly embedded: module-level mutable state
(API tokens, the loaded local model/tokenizer, the per-channel vector
stores) becomes explicit record/parameter values, the external
collaborators (hosted LLM APIs, the FAISS nearest-neighbour store, the
chat platform, PIL/decord decoding) become parameters of the embedded
functions, and the observable chat-platform calls (`edit`, `send`,
HTTP downloads, the VQA model call) are recorded as explicit effect
traces.  Python exceptions become explicit error values threaded
through `Except`/`Option`.
-/

namespace DiscordBot

/-! ## `gpt/gpt_response_gen.py` — multi-provider generation dispatcher -/

/-- Kinds of Python exceptions that matter to the dispatcher:
the three provider-specific error classes caught in
`generate_response`, Python's `ValueError`, and a catch-all for every
other exception class. -/
inductive ErrKind where
  | openaiErr : ErrKind
  | geminiErr : ErrKind
  | claudeErr : ErrKind
  | valueErr : ErrKind
  | otherErr : ErrKind
deriving DecidableEq, Repr

/-- A Python exception value: its class (kind) and its `str(e)` message. -/
structure PyError where
  kind : ErrKind
  msg : String
deriving DecidableEq, Repr

/-- The `TOKENS` record of `addons.settings`: the three API keys read by
`is_model_available`.  `none` models a key that is not set (Python `None`). -/
structure Tokens where
  openai_api_key : Option String
  gemini_api_key : Option String
  anthropic_api_key : Option String
deriving DecidableEq, Repr

/-- The module-level globals `global_model` / `global_tokenizer` of
`gpt_response_gen.py`.  Only presence matters to the embedded code, so the
loaded objects are abstracted to `Option` values. -/
structure LocalModelState where
  global_model : Option String
  global_tokenizer : Option String
deriving DecidableEq, Repr

/-- Embedding of `is_model_available` (gpt_response_gen.py lines 92-102).
A pure function of the module state: `tokens.<key> is not None` becomes
`Option.isSome`, and for `"local"` both globals must be non-`None`.
Any other name falls through to `return False`. -/
def is_model_available (tokens : Tokens) (ls : LocalModelState)
    (model_name : String) : Bool :=
  if model_name = "openai" then tokens.openai_api_key.isSome
  else if model_name = "gemini" then tokens.gemini_api_key.isSome
  else if model_name = "claude" then tokens.anthropic_api_key.isSome
  else if model_name = "local" then
    ls.global_model.isSome && ls.global_tokenizer.isSome
  else false

/-- Behaviour of one provider's generator, as observed by
`generate_response`: either the `await generator(...)` call itself raises
(`initFail`), or it returns a stream that yields the fragments `frags` in
order and then either ends (`tailErr = none`) or raises `tailErr = some e`.
Placing the error after the listed fragments loses no generality because
`frags` is arbitrary. -/
inductive ProviderBehavior where
  | initFail : PyError → ProviderBehavior
  | stream : List String → Option PyError → ProviderBehavior
deriving DecidableEq, Repr

/-- The fragments that `unified_gen` actually yields: the raw fragments
with falsy (empty) chunks dropped (`if chunk: yield chunk`, lines 129-130
and 136-137). -/
def nonEmptyFrags (frags : List String) : List String :=
  frags.filter (fun s => s ≠ "")

/-- How `unified_gen` transforms an exception raised while iterating the
underlying stream (lines 114-143).  For the local model
(`TextIteratorStreamer` branch) every exception is first wrapped into
`ValueError("本地模型生成過程中發生錯誤: ...")` (line 133) and that
`ValueError` is wrapped again by the outer handler (line 143).  For the
async-API branch the three provider error classes are re-raised unchanged
(lines 138-140) and everything else becomes a `ValueError` naming the
model (line 143). -/
def transformTailErr (model_name : String) (e : PyError) : PyError :=
  if model_name = "local" then
    ⟨ErrKind.valueErr,
      model_name ++ " 模型生成過程中發生錯誤: " ++
        ("本地模型生成過程中發生錯誤: " ++ e.msg)⟩
  else if e.kind = ErrKind.openaiErr ∨ e.kind = ErrKind.geminiErr ∨
      e.kind = ErrKind.claudeErr then e
  else
    ⟨ErrKind.valueErr, model_name ++ " 模型生成過程中發生錯誤: " ++ e.msg⟩

/-- The error recorded in `last_error` when the unified stream produces no
non-empty fragment before ending.  If the raw stream raised, `anext`
propagates the transformed error (caught at lines 168 or 180).  If it just
ended, `anext` raises `StopAsyncIteration`, which line 166-167 converts to
`ValueError(f"{model_name} 模型沒有生成有效回應")`, caught by the generic
handler at line 180 (the `except StopAsyncIteration` at line 173 is dead). -/
def emptyStreamError (model_name : String) (tailErr : Option PyError) : PyError :=
  match tailErr with
  | some e => transformTailErr model_name e
  | none => ⟨ErrKind.valueErr, model_name ++ " 模型沒有生成有效回應"⟩

/-- The error an available provider writes into `last_error`, or `none`
when the provider succeeds (its unified stream yields a non-empty first
fragment).  `initFail` is caught by the outermost handler (lines 185-189). -/
def recordedError (model_name : String) (b : ProviderBehavior) : Option PyError :=
  match b with
  | ProviderBehavior.initFail e => some e
  | ProviderBehavior.stream frags tailErr =>
    match nonEmptyFrags frags with
    | _ :: _ => none
    | [] => some (emptyStreamError model_name tailErr)

/-- Result of `generate_response`: success carries the chosen model name,
the first non-empty fragment (`first_response`, line 150), the further
non-empty fragments replayed by `final_gen` (lines 154-161), and the error,
if any, that the continuation of the stream will raise to the consumer
(such an error escapes the dispatcher's fallback loop because the function
has already returned).  Failure carries the finally-raised exception
(lines 192-195). -/
inductive GenOutcome where
  | ok : String → String → List String → Option PyError → GenOutcome
  | fail : PyError → GenOutcome
deriving DecidableEq, Repr

/-- The fallback loop of `generate_response` (lines 104-195), with the
module state and each provider's behaviour passed explicitly.  The second
component of the result is the trace of providers whose generator was
actually invoked (the `MODEL_GENERATORS[model_name]` call at lines
110-111), in invocation order.  `last` is the running `last_error`. -/
def tryModels (tokens : Tokens) (ls : LocalModelState)
    (beh : String → ProviderBehavior) :
    List String → Option PyError → GenOutcome × List String
  | [], last =>
    (match last with
     | some e => GenOutcome.fail ⟨e.kind, "所有模型都失敗了。最後的錯誤: " ++ e.msg⟩
     | none => GenOutcome.fail ⟨ErrKind.valueErr, "沒有可用的模型"⟩, [])
  | model_name :: rest, last =>
    if is_model_available tokens ls model_name then
      match beh model_name with
      | ProviderBehavior.initFail e =>
        let r := tryModels tokens ls beh rest (some e)
        (r.1, model_name :: r.2)
      | ProviderBehavior.stream frags tailErr =>
        match nonEmptyFrags frags with
        | first :: more =>
          (GenOutcome.ok model_name first more
            (tailErr.map (transformTailErr model_name)), [model_name])
        | [] =>
          let r := tryModels tokens ls beh rest
            (some (emptyStreamError model_name tailErr))
          (r.1, model_name :: r.2)
    else tryModels tokens ls beh rest last

/-- Embedding of `generate_response`: run the fallback loop over
`settings.model_priority` with `last_error = None`. -/
def generate_response (tokens : Tokens) (ls : LocalModelState)
    (model_priority : List String) (beh : String → ProviderBehavior) :
    GenOutcome :=
  (tryModels tokens ls beh model_priority none).1

/-- The providers whose generator `generate_response` actually invokes,
in order. -/
def invoked_models (tokens : Tokens) (ls : LocalModelState)
    (model_priority : List String) (beh : String → ProviderBehavior) :
    List String :=
  (tryModels tokens ls beh model_priority none).2

/-- The `last_error` values recorded while walking a priority list:
one entry per available provider that fails, in list order. -/
def recordedErrors (tokens : Tokens) (ls : LocalModelState)
    (beh : String → ProviderBehavior) (priority : List String) :
    List PyError :=
  priority.filterMap (fun n =>
    if is_model_available tokens ls n then recordedError n (beh n) else none)

/-- The exception `generate_response` raises after the loop: the recorded
`last_error` wrapped with the summary message (line 193), or the generic
"no model available" `ValueError` when nothing was recorded (line 195). -/
def wrapLastError : Option PyError → PyError
  | some e => ⟨e.kind, "所有模型都失敗了。最後的錯誤: " ++ e.msg⟩
  | none => ⟨ErrKind.valueErr, "沒有可用的模型"⟩

section DispatchLemmas

variable (tokens : Tokens) (ls : LocalModelState) (beh : String → ProviderBehavior)

theorem tryModels_skip (name : String) (rest : List String) (last : Option PyError)
    (h : is_model_available tokens ls name = false) :
    tryModels tokens ls beh (name :: rest) last = tryModels tokens ls beh rest last := by
  simp [tryModels, h]

theorem tryModels_step_fail (name : String) (rest : List String) (last : Option PyError)
    (e : PyError)
    (ha : is_model_available tokens ls name = true)
    (he : recordedError name (beh name) = some e) :
    tryModels tokens ls beh (name :: rest) last =
      ((tryModels tokens ls beh rest (some e)).1,
        name :: (tryModels tokens ls beh rest (some e)).2) := by
  cases hb : beh name with
  | initFail e0 =>
    rw [hb] at he
    simp only [recordedError, Option.some.injEq] at he
    cases he
    simp [tryModels, ha, hb]
  | stream frags tailErr =>
    rw [hb] at he
    cases hne : nonEmptyFrags frags with
    | nil =>
      simp only [recordedError, hne, Option.some.injEq] at he
      cases he
      simp [tryModels, ha, hb, hne]
    | cons f fs =>
      simp only [recordedError, hne] at he
      exact absurd he (by simp)

theorem tryModels_step_ok (name : String) (rest : List String) (last : Option PyError)
    (frags : List String) (tailErr : Option PyError) (first : String) (more : List String)
    (ha : is_model_available tokens ls name = true)
    (hb : beh name = ProviderBehavior.stream frags tailErr)
    (hne : nonEmptyFrags frags = first :: more) :
    tryModels tokens ls beh (name :: rest) last =
      (GenOutcome.ok name first more (tailErr.map (transformTailErr name)), [name]) := by
  simp [tryModels, ha, hb, hne]

theorem tryModels_of_no_success (priority : List String) :
    ∀ last : Option PyError,
      (∀ n ∈ priority, is_model_available tokens ls n = true →
        recordedError n (beh n) ≠ none) →
      (tryModels tokens ls beh priority last).1 =
        GenOutcome.fail (wrapLastError
          ((last.toList ++ recordedErrors tokens ls beh priority).getLast?)) := by
  induction priority with
  | nil =>
    intro last _
    cases last <;> simp [tryModels, recordedErrors, wrapLastError]
  | cons name rest ih =>
    intro last h
    by_cases ha : is_model_available tokens ls name = true
    · have hrec : recordedError name (beh name) ≠ none :=
        h name (by simp) ha
      obtain ⟨e, he⟩ : ∃ e, recordedError name (beh name) = some e := by
        cases hr : recordedError name (beh name) with
        | none => exact absurd hr hrec
        | some e => exact ⟨e, rfl⟩
      rw [tryModels_step_fail tokens ls beh name rest last e ha he]
      have hrest := ih (some e) (fun n hn han => h n (by simp [hn]) han)
      rw [hrest]
      have hrecs : recordedErrors tokens ls beh (name :: rest) =
          e :: recordedErrors tokens ls beh rest := by
        simp [recordedErrors, ha, he]
      rw [hrecs]
      congr 1
      rw [List.getLast?_append_cons]
      cases last <;> simp [List.getLast?_append_cons]
    · have ha' : is_model_available tokens ls name = false := by
        simpa using ha
      rw [tryModels_skip tokens ls beh name rest last ha']
      have hrecs : recordedErrors tokens ls beh (name :: rest) =
          recordedErrors tokens ls beh rest := by
        simp [recordedErrors, ha']
      rw [hrecs]
      exact ih last (fun n hn han => h n (by simp [hn]) han)

theorem tryModels_ok_nonempty (priority : List String) :
    ∀ (last : Option PyError) (name first : String) (more : List String)
      (restErr : Option PyError),
      (tryModels tokens ls beh priority last).1 =
        GenOutcome.ok name first more restErr →
      first ≠ "" ∧ ∀ s ∈ more, s ≠ "" := by
  induction priority with
  | nil =>
    intro last name first more restErr h
    cases last <;> simp [tryModels] at h
  | cons p rest ih =>
    intro last name first more restErr h
    by_cases ha : is_model_available tokens ls p = true
    · cases hb : beh p with
      | initFail e =>
        simp [tryModels, ha, hb] at h
        exact ih _ name first more restErr h
      | stream frags tailErr =>
        cases hne : nonEmptyFrags frags with
        | nil =>
          simp [tryModels, ha, hb, hne] at h
          exact ih _ name first more restErr h
        | cons f fs =>
          rw [tryModels_step_ok tokens ls beh p rest last frags tailErr f fs ha hb hne] at h
          simp at h
          obtain ⟨_, hf, hm, _⟩ := h
          have hmem : ∀ s ∈ nonEmptyFrags frags, s ≠ "" := by
            intro s hs
            have := List.of_mem_filter (l := frags) (p := fun s => s ≠ "") hs
            simpa using this
          constructor
          · exact hf ▸ hmem f (by rw [hne]; exact List.mem_cons_self f fs)
          · intro s hs
            exact hmem s (by rw [hne, ← hm] at *; exact List.mem_cons_of_mem f hs)
    · have ha' : is_model_available tokens ls p = false := by simpa using ha
      rw [tryModels_skip tokens ls beh p rest last ha'] at h
      exact ih _ name first more restErr h

end DispatchLemmas

section DispatchClaims

theorem tryModels_ok_of_split (tokens : Tokens) (ls : LocalModelState)
    (beh : String → ProviderBehavior) (l2 : List String)
    (name first : String) (more frags : List String) (tailErr : Option PyError)
    (ha : is_model_available tokens ls name = true)
    (hb : beh name = ProviderBehavior.stream frags tailErr)
    (hne : nonEmptyFrags frags = first :: more) :
    ∀ (l1 : List String) (last : Option PyError),
      (∀ p ∈ l1, is_model_available tokens ls p = true →
        recordedError p (beh p) ≠ none) →
      tryModels tokens ls beh (l1 ++ name :: l2) last =
        (GenOutcome.ok name first more (tailErr.map (transformTailErr name)),
          (l1.filter (fun p => is_model_available tokens ls p)) ++ [name]) := by
  intro l1
  induction l1 with
  | nil =>
    intro last _
    simpa using tryModels_step_ok tokens ls beh name l2 last frags tailErr first more ha hb hne
  | cons p l1' ih =>
    intro last h
    by_cases hap : is_model_available tokens ls p = true
    · have hrec : recordedError p (beh p) ≠ none := h p (by simp) hap
      obtain ⟨e, he⟩ : ∃ e, recordedError p (beh p) = some e := by
        cases hr : recordedError p (beh p) with
        | none => exact absurd hr hrec
        | some e => exact ⟨e, rfl⟩
      rw [List.cons_append,
        tryModels_step_fail tokens ls beh p (l1' ++ name :: l2) last e hap he,
        ih (some e) (fun q hq haq => h q (by simp [hq]) haq)]
      simp [hap]
    · have hap' : is_model_available tokens ls p = false := by simpa using hap
      rw [List.cons_append, tryModels_skip tokens ls beh p (l1' ++ name :: l2) last hap',
        ih last (fun q hq haq => h q (by simp [hq]) haq)]
      simp [hap']

/-- **C1.** For every priority list and every assignment of availability
and behaviour to the providers, `generate_response` walks
`settings.model_priority` strictly in order: providers in the prefix `l1`
before the first available provider `name` whose unified stream yields a
non-empty first fragment are invoked exactly when they are available (the
unavailable ones are skipped without invocation), the dispatcher returns
with `name`'s first non-empty fragment, and no provider of the tail `l2`
is ever invoked. -/
theorem claim1_dispatch_order (tokens : Tokens) (ls : LocalModelState)
    (beh : String → ProviderBehavior) (model_priority l1 l2 : List String)
    (name first : String) (more frags : List String) (tailErr : Option PyError)
    (hsplit : model_priority = l1 ++ name :: l2)
    (hprev : ∀ p ∈ l1, is_model_available tokens ls p = true →
      recordedError p (beh p) ≠ none)
    (ha : is_model_available tokens ls name = true)
    (hb : beh name = ProviderBehavior.stream frags tailErr)
    (hne : nonEmptyFrags frags = first :: more) :
    generate_response tokens ls model_priority beh =
      GenOutcome.ok name first more (tailErr.map (transformTailErr name)) ∧
    invoked_models tokens ls model_priority beh =
      (l1.filter (fun p => is_model_available tokens ls p)) ++ [name] := by
  have h := tryModels_ok_of_split tokens ls beh l2 name first more frags tailErr
    ha hb hne l1 none hprev
  rw [hsplit]
  constructor
  · rw [generate_response, h]
  · rw [invoked_models, h]

theorem claim1_witness :
    generate_response
      ⟨some "sk-openai", some "sk-gemini", some "sk-claude"⟩
      ⟨none, none⟩
      ["local", "openai", "gemini", "claude"]
      (fun n =>
        if n = "openai" then ProviderBehavior.initFail ⟨ErrKind.openaiErr, "quota"⟩
        else if n = "gemini" then ProviderBehavior.stream ["", "你好", "世界"] none
        else ProviderBehavior.stream ["later"] none) =
      GenOutcome.ok "gemini" "你好" ["世界"] none ∧
    invoked_models
      ⟨some "sk-openai", some "sk-gemini", some "sk-claude"⟩
      ⟨none, none⟩
      ["local", "openai", "gemini", "claude"]
      (fun n =>
        if n = "openai" then ProviderBehavior.initFail ⟨ErrKind.openaiErr, "quota"⟩
        else if n = "gemini" then ProviderBehavior.stream ["", "你好", "世界"] none
        else ProviderBehavior.stream ["later"] none) = ["openai", "gemini"] := by
  have h := claim1_dispatch_order
    ⟨some "sk-openai", some "sk-gemini", some "sk-claude"⟩
    ⟨none, none⟩
    (fun n =>
      if n = "openai" then ProviderBehavior.initFail ⟨ErrKind.openaiErr, "quota"⟩
      else if n = "gemini" then ProviderBehavior.stream ["", "你好", "世界"] none
      else ProviderBehavior.stream ["later"] none)
    ["local", "openai", "gemini", "claude"] ["local", "openai"] ["claude"]
    "gemini" "你好" ["世界"] ["", "你好", "世界"] none
    rfl (by decide) (by decide) (by decide) (by decide)
  exact ⟨h.1, by rw [h.2]; decide⟩

/-- **C3.** Whenever no provider in the priority list succeeds,
`generate_response` raises: with the generic
`ValueError("沒有可用的模型")` when no available provider recorded an
error (in particular when every provider is unavailable), and otherwise
with an exception of the same class as the most recently recorded
provider error, its message wrapped in the summary
`"所有模型都失敗了。最後的錯誤: ..."` (lines 190-195). -/
theorem claim3_exhaustion_error (tokens : Tokens) (ls : LocalModelState)
    (beh : String → ProviderBehavior) (model_priority : List String)
    (hfail : ∀ n ∈ model_priority, is_model_available tokens ls n = true →
      recordedError n (beh n) ≠ none) :
    generate_response tokens ls model_priority beh =
      GenOutcome.fail (wrapLastError
        (recordedErrors tokens ls beh model_priority).getLast?) := by
  have h := tryModels_of_no_success tokens ls beh model_priority none hfail
  rw [generate_response, h]
  simp

theorem claim3_witness :
    generate_response ⟨none, none, none⟩ ⟨none, none⟩
      ["openai", "gemini", "claude", "local"] (fun _ => ProviderBehavior.stream [] none) =
      GenOutcome.fail ⟨ErrKind.valueErr, "沒有可用的模型"⟩ ∧
    generate_response ⟨some "k", none, none⟩ ⟨none, none⟩
      ["openai", "gemini"]
      (fun _ => ProviderBehavior.initFail ⟨ErrKind.openaiErr, "bad key"⟩) =
      GenOutcome.fail ⟨ErrKind.openaiErr, "所有模型都失敗了。最後的錯誤: bad key"⟩ := by
  constructor
  · have h := claim3_exhaustion_error ⟨none, none, none⟩ ⟨none, none⟩
      (fun _ => ProviderBehavior.stream [] none)
      ["openai", "gemini", "claude", "local"] (by decide)
    rw [h]; decide
  · have h := claim3_exhaustion_error ⟨some "k", none, none⟩ ⟨none, none⟩
      (fun _ => ProviderBehavior.initFail ⟨ErrKind.openaiErr, "bad key"⟩)
      ["openai", "gemini"] (by decide)
    rw [h]; decide

/-- **C4, counterexample to the claim as stated.**  The provider
`"openai"` is available and its raw stream yields the *empty* string as
its first fragment; the claim says such a provider is treated as failed
and the loop advances.  Instead `unified_gen` silently filters the empty
chunk out (`if chunk: yield chunk`), the same provider succeeds with its
second fragment "ok", and the loop never advances to the available
`"gemini"`. -/
theorem claim4_counterexample :
    (fun n : String =>
        if n = "openai" then ProviderBehavior.stream ["", "ok"] none
        else ProviderBehavior.stream ["fallback"] none) "openai" =
      ProviderBehavior.stream ["", "ok"] none ∧
    generate_response ⟨some "k1", some "k2", none⟩ ⟨none, none⟩
      ["openai", "gemini"]
      (fun n =>
        if n = "openai" then ProviderBehavior.stream ["", "ok"] none
        else ProviderBehavior.stream ["fallback"] none) =
      GenOutcome.ok "openai" "ok" [] none ∧
    invoked_models ⟨some "k1", some "k2", none⟩ ⟨none, none⟩
      ["openai", "gemini"]
      (fun n =>
        if n = "openai" then ProviderBehavior.stream ["", "ok"] none
        else ProviderBehavior.stream ["fallback"] none) = ["openai"] := by
  refine ⟨by decide, by decide, by decide⟩

/-- **C4, amended.**  A provider whose stream yields *no non-empty
fragment at all* before ending is treated as failed exactly like a
provider error: a `ValueError` naming the provider is recorded as
`last_error` and the loop advances to the next provider; and an empty
fragment is never part of a returned answer (empty chunks are filtered
out, so in every successful outcome the first fragment and all further
fragments are non-empty).  (As the counterexample shows, a provider
whose *first* fragment is empty but that later yields a non-empty
fragment is *not* treated as failed — the empty chunk is just skipped.) -/
theorem claim4_empty_stream_failure (tokens : Tokens) (ls : LocalModelState)
    (beh : String → ProviderBehavior) :
    (∀ (name : String) (rest : List String) (last : Option PyError)
        (frags : List String),
      is_model_available tokens ls name = true →
      beh name = ProviderBehavior.stream frags none →
      nonEmptyFrags frags = [] →
      tryModels tokens ls beh (name :: rest) last =
        ((tryModels tokens ls beh rest
            (some ⟨ErrKind.valueErr, name ++ " 模型沒有生成有效回應"⟩)).1,
          name :: (tryModels tokens ls beh rest
            (some ⟨ErrKind.valueErr, name ++ " 模型沒有生成有效回應"⟩)).2)) ∧
    (∀ (model_priority : List String) (name first : String)
        (more : List String) (restErr : Option PyError),
      generate_response tokens ls model_priority beh =
        GenOutcome.ok name first more restErr →
      first ≠ "" ∧ ∀ s ∈ more, s ≠ "") := by
  constructor
  · intro name rest last frags ha hb hne
    exact tryModels_step_fail tokens ls beh name rest last _ ha
      (by simp [recordedError, hb, hne, emptyStreamError])
  · intro model_priority name first more restErr h
    exact tryModels_ok_nonempty tokens ls beh model_priority none name first more restErr h

theorem claim4_witness :
    tryModels ⟨some "k", some "k2", none⟩ ⟨none, none⟩
      (fun _ => ProviderBehavior.stream ["", ""] none) ["openai", "gemini"] none =
      ((tryModels ⟨some "k", some "k2", none⟩ ⟨none, none⟩
          (fun _ => ProviderBehavior.stream ["", ""] none) ["gemini"]
          (some ⟨ErrKind.valueErr, "openai 模型沒有生成有效回應"⟩)).1,
        "openai" :: (tryModels ⟨some "k", some "k2", none⟩ ⟨none, none⟩
          (fun _ => ProviderBehavior.stream ["", ""] none) ["gemini"]
          (some ⟨ErrKind.valueErr, "openai 模型沒有生成有效回應"⟩)).2) ∧
    ("笑" ≠ "" ∧ ∀ s ∈ (["哈"] : List String), s ≠ "") := by
  constructor
  · exact (claim4_empty_stream_failure ⟨some "k", some "k2", none⟩ ⟨none, none⟩
      (fun _ => ProviderBehavior.stream ["", ""] none)).1
      "openai" ["gemini"] none ["", ""] (by decide) rfl (by decide)
  · exact (claim4_empty_stream_failure ⟨some "k", some "k2", none⟩ ⟨none, none⟩
      (fun _ => ProviderBehavior.stream ["笑", "哈"] none)).2
      ["openai"] "openai" "笑" ["哈"] none (by decide)

/-- **C5.**  `is_model_available` returns `true` exactly when the named
backend's required resource is present — the corresponding API key for
`"openai"`/`"gemini"`/`"claude"`, both `global_model` and
`global_tokenizer` non-`None` for `"local"` — and `false` for every
other name.  The embedding is a pure function of the module state, so
freedom from side effects holds by construction. -/
theorem claim5_availability (tokens : Tokens) (ls : LocalModelState) :
    is_model_available tokens ls "openai" = tokens.openai_api_key.isSome ∧
    is_model_available tokens ls "gemini" = tokens.gemini_api_key.isSome ∧
    is_model_available tokens ls "claude" = tokens.anthropic_api_key.isSome ∧
    is_model_available tokens ls "local" =
      (ls.global_model.isSome && ls.global_tokenizer.isSome) ∧
    ∀ name : String, name ∉ ["openai", "gemini", "claude", "local"] →
      is_model_available tokens ls name = false := by
  refine ⟨by simp [is_model_available], by simp [is_model_available],
    by simp [is_model_available], by simp [is_model_available], ?_⟩
  intro name hname
  simp only [List.mem_cons, List.mem_singleton, not_or] at hname
  obtain ⟨h1, h2, h3, h4, _⟩ := hname
  simp [is_model_available, h1, h2, h3, h4]

theorem claim5_witness :
    is_model_available ⟨some "a", none, some "c"⟩ ⟨some "m", none⟩ "openai" = true ∧
    is_model_available ⟨some "a", none, some "c"⟩ ⟨some "m", none⟩ "gemini" = false ∧
    is_model_available ⟨some "a", none, some "c"⟩ ⟨some "m", none⟩ "claude" = true ∧
    is_model_available ⟨some "a", none, some "c"⟩ ⟨some "m", none⟩ "local" = false ∧
    is_model_available ⟨some "a", none, some "c"⟩ ⟨some "m", none⟩ "mistral" = false := by
  have h := claim5_availability ⟨some "a", none, some "c"⟩ ⟨some "m", none⟩
  exact ⟨h.1, by rw [h.2.1]; decide, by rw [h.2.2.1]; decide,
    by rw [h.2.2.2.1]; decide, h.2.2.2.2 "mistral" (by decide)⟩

end DispatchClaims

/-! ## `gpt/sendmessage.py` — per-channel similarity search -/

/-- Python's `str.strip()`: drop whitespace from both ends
(sendmessage.py line 126).  Implemented on the character list so that
the surrounding proofs can reason structurally. -/
def pyStrip (s : String) : String :=
  String.mk (((s.data.dropWhile Char.isWhitespace).reverse.dropWhile
    Char.isWhitespace).reverse)

/-- The formatting loop of `search_vector_database` (lines 122-124):
`for i, data in enumerate(related_data, 1): formatted_data += f"{i}. <{data}>\n"`,
with the running index `i` made explicit. -/
def formatRelated (i : Nat) : List String → String
  | [] => ""
  | d :: ds => toString i ++ ". <" ++ d ++ ">\n" ++ formatRelated (i + 1) ds

/-- Embedding of `search_vector_database` (sendmessage.py lines 114-129).
The module-level `vector_stores` dict becomes an explicit map from
channel id to the stored texts, and the opaque FAISS store's
`similarity_search(query, k)` (whose results' `metadata['text']` fields
the code collects) becomes the parameter `similarity_search`, applied
with `k = 20` as in the source.  Python's `set(related_data)` keeps one
copy of each text in an unspecified hash order; the embedding fixes the
canonical order chosen by `List.dedup`.  The `try/except` wrapper
returns `''` only when the external store raises, which the pure
embedding cannot. -/
def search_vector_database (vector_stores : String → Option (List String))
    (similarity_search : List String → String → Nat → List String)
    (query channel_id : String) : String :=
  match vector_stores channel_id with
  | none => ""
  | some store =>
    let related_data := (similarity_search store query 20).dedup
    pyStrip ("Database:\n" ++ formatRelated 1 related_data)

/-- Specification-side rendition of the numbered list: the line for the
`j`-th text (0-based `j`, printed index `i + j`). -/
def numberedLinesFrom (i : Nat) : List String → List String
  | [] => []
  | d :: ds => (toString i ++ ". <" ++ d ++ ">") :: numberedLinesFrom (i + 1) ds

/-- Specification-side rendition of a newline-separated block with no
trailing newline. -/
def renderLines : List String → String
  | [] => ""
  | [ln] => ln
  | ln :: ln2 :: lns => ln ++ "\n" ++ renderLines (ln2 :: lns)

theorem foldl_append_eq (l : List String) :
    ∀ a : String, List.foldl (fun r s => r ++ s) a l =
      a ++ List.foldl (fun r s => r ++ s) "" l := by
  induction l with
  | nil => intro a; simp [List.foldl]
  | cons x xs ih =>
    intro a
    simp only [List.foldl]
    rw [ih (a ++ x), ih ("" ++ x), String.empty_append, String.append_assoc]

theorem join_cons (s : String) (l : List String) :
    String.join (s :: l) = s ++ String.join l := by
  show List.foldl (fun r s => r ++ s) ("" ++ s) l = _
  rw [String.empty_append, foldl_append_eq]
  rfl

/-- Each line of `formatRelated` is a numbered line followed by a
newline. -/
theorem formatRelated_eq_joinNL (ds : List String) :
    ∀ i : Nat, formatRelated i ds =
      String.join ((numberedLinesFrom i ds).map (fun ln => ln ++ "\n")) := by
  induction ds with
  | nil => intro i; rfl
  | cons d ds ih =>
    intro i
    show toString i ++ ". <" ++ d ++ ">\n" ++ formatRelated (i + 1) ds = _
    rw [ih (i + 1), numberedLinesFrom, List.map_cons, join_cons]
    apply String.ext
    simp [String.data_append]

theorem prepend_joinNL (lines : List String) :
    ∀ P : String,
      P ++ "\n" ++ String.join (lines.map (fun ln => ln ++ "\n")) =
        renderLines (P :: lines) ++ "\n" := by
  induction lines with
  | nil =>
    intro P
    show P ++ "\n" ++ String.join [] = P ++ "\n"
    rw [show String.join [] = "" from rfl, String.append_empty]
  | cons ln lns ih =>
    intro P
    rw [List.map_cons, join_cons]
    have h := ih ln
    apply String.ext
    have hd := congrArg String.data h
    simp only [String.data_append, List.append_assoc] at hd ⊢
    rw [renderLines]
    simp only [String.data_append, List.append_assoc]
    rw [hd]

/-- List-level core of the strip argument: a character list whose head
and proper last characters are not whitespace, extended with one
`'\n'`, strips back to itself. -/
theorem stripList_concat_newline (m : List Char) (a : Char)
    (ha : a.isWhitespace = false)
    (hm : ∀ c ∈ m.take 1, c.isWhitespace = false) :
    ((((m ++ [a]) ++ ['\n']).dropWhile Char.isWhitespace).reverse.dropWhile
      Char.isWhitespace).reverse = m ++ [a] := by
  cases m with
  | nil =>
    show ((([a, '\n']).dropWhile Char.isWhitespace).reverse.dropWhile
      Char.isWhitespace).reverse = [a]
    rw [List.dropWhile_cons_of_neg (by simp [ha])]
    simp [List.dropWhile, ha]
  | cons b bs =>
    have hb : b.isWhitespace = false := hm b (by simp)
    have h1 : ((b :: bs ++ [a]) ++ ['\n']).dropWhile Char.isWhitespace =
        (b :: bs ++ [a]) ++ ['\n'] := by
      rw [List.cons_append, List.cons_append,
        List.dropWhile_cons_of_neg (by simp [hb])]
    rw [h1]
    have h2 : ((b :: bs ++ [a]) ++ ['\n']).reverse =
        '\n' :: a :: (bs.reverse ++ [b]) := by simp
    rw [h2]
    have h3 : ('\n' :: a :: (bs.reverse ++ [b])).dropWhile Char.isWhitespace =
        a :: (bs.reverse ++ [b]) := by
      rw [List.dropWhile_cons_of_pos (by simp),
        List.dropWhile_cons_of_neg (by simp [ha])]
    rw [h3]
    simp

/-- Stripping a single trailing newline from a string whose first and
last proper characters are not whitespace gives the string back. -/
theorem pyStrip_append_newline (Y : String) (c0 c1 : Char)
    (hhead : Y.data.head? = some c0) (hc0 : c0.isWhitespace = false)
    (hlast : Y.data.getLast? = some c1) (hc1 : c1.isWhitespace = false) :
    pyStrip (Y ++ "\n") = Y := by
  obtain ⟨m, hm⟩ : ∃ m, Y.data = m ++ [c1] := by
    rcases List.getLast?_eq_some_iff.mp hlast with ⟨m, hm⟩
    exact ⟨m, hm⟩
  apply String.ext
  show (((Y ++ "\n").data.dropWhile Char.isWhitespace).reverse.dropWhile
    Char.isWhitespace).reverse = Y.data
  rw [String.data_append, show ("\n" : String).data = ['\n'] from rfl, hm]
  refine stripList_concat_newline m c1 hc1 ?_
  intro c hc
  cases m with
  | nil => simp at hc
  | cons b bs =>
    have hb : c = b := by simpa using hc
    have hbc : b = c0 := by
      rw [hm] at hhead
      simpa using hhead
    rw [hb, hbc]
    exact hc0

/-- Every line produced by `numberedLinesFrom` ends in `'>'`. -/
theorem numberedLinesFrom_lastChar (ds : List String) :
    ∀ i : Nat, ∀ ln ∈ numberedLinesFrom i ds, ln.data.getLast? = some '>' := by
  induction ds with
  | nil => intro i ln h; simp [numberedLinesFrom] at h
  | cons d ds ih =>
    intro i ln h
    rw [numberedLinesFrom] at h
    rcases List.mem_cons.mp h with h | h
    · subst h
      show ((toString i ++ ". <" ++ d) ++ ">").data.getLast? = some '>'
      rw [String.data_append]
      rw [List.getLast?_append_of_ne_nil _ (by decide)]
      rfl
    · exact ih (i + 1) ln h

/-- `renderLines` of a non-whitespace-headed block keeps a
non-whitespace head character. -/
theorem renderLines_head (P : String) (lines : List String) (c0 : Char)
    (h : P.data.head? = some c0) :
    (renderLines (P :: lines)).data.head? = some c0 := by
  cases lines with
  | nil => exact h
  | cons ln lns =>
    rw [renderLines]
    cases hP : P.data with
    | nil => rw [hP] at h; simp at h
    | cons a as =>
      rw [hP] at h
      simp only [List.head?_cons, Option.some.injEq] at h
      simp [String.data_append, hP, h]

/-- `renderLines` of a block whose final line ends in `'>'` ends in
`'>'`. -/
theorem renderLines_last (lines : List String) :
    ∀ P : String, lines ≠ [] →
      (∀ ln ∈ lines, ln.data.getLast? = some '>') →
      (renderLines (P :: lines)).data.getLast? = some '>' := by
  induction lines with
  | nil => intro P h _; exact absurd rfl h
  | cons ln lns ih =>
    intro P _ hl
    rw [renderLines]
    have h : (renderLines (ln :: lns)).data.getLast? = some '>' := by
      cases lns with
      | nil => exact hl ln (by simp)
      | cons ln2 lns2 => exact ih ln (by simp) (fun x hx => hl x (by simp [hx]))
    have hne : (renderLines (ln :: lns)).data ≠ [] := by
      intro hc
      rw [hc] at h
      simp at h
    rw [String.data_append, List.getLast?_append_of_ne_nil _ hne]
    exact h

/-- **C6.**  If the channel has no entry in `vector_stores`, the search
returns the empty string rather than raising.  If the channel has a
store and the nearest-neighbour backend honours its `k = 20` cap, the
result is exactly the header `"Database:"` followed by the deduplicated
texts — at most 20 of them, pairwise distinct — rendered as a numbered
list with 1-based indices (the final newline stripped as by
`.strip()`). -/
theorem claim6_search_vector_database
    (vector_stores : String → Option (List String))
    (similarity_search : List String → String → Nat → List String)
    (query channel_id : String) :
    (vector_stores channel_id = none →
      search_vector_database vector_stores similarity_search query channel_id = "") ∧
    (∀ store, vector_stores channel_id = some store →
      (similarity_search store query 20).length ≤ 20 →
      ((similarity_search store query 20).dedup.Nodup ∧
       (similarity_search store query 20).dedup.length ≤ 20 ∧
       search_vector_database vector_stores similarity_search query channel_id =
         renderLines ("Database:" ::
           numberedLinesFrom 1 (similarity_search store query 20).dedup))) := by
  constructor
  · intro h
    rw [search_vector_database, h]
  · intro store hstore hlen
    refine ⟨List.nodup_dedup _, le_trans (List.Sublist.length_le (List.dedup_sublist _)) hlen, ?_⟩
    rw [search_vector_database, hstore]
    show pyStrip ("Database:\n" ++ formatRelated 1 (similarity_search store query 20).dedup) = _
    set texts := (similarity_search store query 20).dedup with htexts
    rw [formatRelated_eq_joinNL texts 1]
    have hD : ("Database:\n" : String) = "Database:" ++ "\n" := by decide
    rw [hD, prepend_joinNL (numberedLinesFrom 1 texts) "Database:"]
    cases htl : numberedLinesFrom 1 texts with
    | nil =>
      exact pyStrip_append_newline _ 'D' ':' (by decide) (by decide) (by decide) (by decide)
    | cons ln lns =>
      refine pyStrip_append_newline _ 'D' '>' ?_ (by decide) ?_ (by decide)
      · exact renderLines_head "Database:" (ln :: lns) 'D' (by decide)
      · refine renderLines_last (ln :: lns) "Database:" (by simp) ?_
        intro x hx
        exact numberedLinesFrom_lastChar texts 1 x (htl ▸ hx)

theorem claim6_witness :
    search_vector_database
      (fun cid => if cid = "42" then some ["甲", "乙"] else none)
      (fun store _ k => store.take k) "hello" "7" = "" ∧
    search_vector_database
      (fun cid => if cid = "42" then some ["甲", "乙"] else none)
      (fun store _ k => store.take k) "hello" "42" =
      renderLines ("Database:" :: numberedLinesFrom 1 ["甲", "乙"]) := by
  constructor
  · exact (claim6_search_vector_database
      (fun cid => if cid = "42" then some ["甲", "乙"] else none)
      (fun store _ k => store.take k) "hello" "7").1 (by decide)
  · have h := (claim6_search_vector_database
      (fun cid => if cid = "42" then some ["甲", "乙"] else none)
      (fun store _ k => store.take k) "hello" "42").2 ["甲", "乙"] (by decide) (by decide)
    have heq : (((fun (store : List String) (_ : String) (k : Nat) => store.take k)
        ["甲", "乙"] "hello" 20).dedup) = ["甲", "乙"] := by decide
    rw [heq] at h
    exact h.2.2

/-! ## `gpt/sendmessage.py` — `gpt_message` prompt assembly and streaming -/

/-- The augmented prompt assembled at sendmessage.py line 153:
`combined_prompt = f"information:<<{related_data}>>user: {prompt}"`. -/
def combined_prompt (related_data prompt : String) : String :=
  "information:<<" ++ related_data ++ ">>user: " ++ prompt

/-- The `inst` argument actually handed to the generation call at
sendmessage.py line 159:
`thread, streamer = await generate_response(prompt, system_prompt, history_dict)`.
The call passes the bare user `prompt`; `combined_prompt` (line 153) is
never used. -/
def generation_inst_argument (prompt _related_data : String) : String :=
  prompt

/-- **C2, evaluated at the failing input.**  With `related_data`
holding a non-empty similarity-search result and user prompt
`"今天天氣如何"`, the argument passed to generation is the bare prompt
and differs from the augmented prompt the claim promises. -/
theorem claim2_bare_prompt_passed :
    generation_inst_argument "今天天氣如何" "Database:\n1. <甲>" = "今天天氣如何" ∧
    generation_inst_argument "今天天氣如何" "Database:\n1. <甲>" ≠
      combined_prompt "Database:\n1. <甲>" "今天天氣如何" := by
  refine ⟨rfl, by decide⟩

/-- One observable chat-platform call made by the streaming loop:
`current_message.edit(content=...)` or `channel.send(...)`. -/
inductive ChatEffect where
  | edit : String → ChatEffect
  | send : String → ChatEffect
deriving DecidableEq, Repr

/-- `"<|eot_id|>".data`, the pattern removed by
`responsesall.replace('<|eot_id|>', "")`. -/
def eotPattern : List Char := "<|eot_id|>".data

/-- Python's `str.replace(pat, "")` for the fixed non-empty pattern
`"<|eot_id|>"`: remove non-overlapping occurrences left to right. -/
def removeEotAux : List Char → List Char
  | [] => []
  | c :: rest =>
    if eotPattern.isPrefixOf (c :: rest) then removeEotAux (rest.drop 9)
    else c :: removeEotAux rest
termination_by l => l.length
decreasing_by
  · simp only [List.length_drop, List.length_cons]
    omega
  · simp

/-- `responsesall.replace('<|eot_id|>', "")` (sendmessage.py lines 174,
179, 184). -/
def pyReplaceEot (s : String) : String :=
  String.mk (removeEotAux s.data)

theorem removeEotAux_length : ∀ l : List Char, (removeEotAux l).length ≤ l.length := by
  suffices h : ∀ (n : Nat) (l : List Char), l.length ≤ n →
      (removeEotAux l).length ≤ l.length by
    exact fun l => h l.length l le_rfl
  intro n
  induction n with
  | zero =>
    intro l h
    have : l = [] := List.length_eq_zero.mp (Nat.le_zero.mp h)
    subst this
    simp [removeEotAux]
  | succ n ih =>
    intro l h
    cases l with
    | nil => simp [removeEotAux]
    | cons c rest =>
      rw [removeEotAux]
      by_cases hp : eotPattern.isPrefixOf (c :: rest)
      · rw [if_pos hp]
        have h1 : (rest.drop 9).length ≤ n := by
          simp only [List.length_cons] at h
          simp only [List.length_drop]
          omega
        calc (removeEotAux (rest.drop 9)).length
            ≤ (rest.drop 9).length := ih _ h1
          _ ≤ (c :: rest).length := by
              simp only [List.length_drop, List.length_cons]; omega
      · rw [if_neg hp]
        have h1 : rest.length ≤ n := by
          simp only [List.length_cons] at h
          omega
        have := ih rest h1
        simp only [List.length_cons]
        omega

theorem pyReplaceEot_length (s : String) : (pyReplaceEot s).length ≤ s.length := by
  show (String.mk (removeEotAux s.data)).length ≤ s.length
  rw [String.length_mk]
  exact removeEotAux_length s.data

/-- The loop state of `gpt_message`'s streaming loop (sendmessage.py
lines 156-176): the pending buffer `responses`, the accumulated text of
the current output message `responsesall`, the full transcript
`message_result`, and the chat-platform calls made so far.  The current
target message is implicit: an `edit` always addresses the message most
recently created (initially `message_to_edit`, replaced on each `send`). -/
structure StreamLoopState where
  responses : String
  responsesall : String
  message_result : String
  effects : List ChatEffect
deriving DecidableEq, Repr

/-- `buffer_size = 40` (sendmessage.py line 160). -/
def buffer_size : Nat := 40

/-- One iteration of `for response in streamer:` (sendmessage.py lines
163-176), with the script converter `converter.convert` passed in as
`conv`. -/
def processChunk (conv : String → String) (st : StreamLoopState)
    (response : String) : StreamLoopState :=
  let responses := st.responses ++ response
  let message_result := st.message_result ++ response
  if buffer_size ≤ responses.length then
    if 1900 < (st.responsesall ++ responses).length then
      let responsesall := pyReplaceEot ("" ++ responses)
      { responses := "",
        responsesall := responsesall,
        message_result := message_result,
        effects := (st.effects ++ [ChatEffect.send "繼續輸出中..."]) ++
          [ChatEffect.edit (conv responsesall)] }
    else
      let responsesall := pyReplaceEot (st.responsesall ++ responses)
      { responses := "",
        responsesall := responsesall,
        message_result := message_result,
        effects := st.effects ++ [ChatEffect.edit (conv responsesall)] }
  else
    { responses := responses,
      responsesall := st.responsesall,
      message_result := message_result,
      effects := st.effects }

/-- The leftover handling after the loop (sendmessage.py lines 178-186):
replace, overflow check, and either a fresh `send` of the pending buffer
or a final edit.  Returns the effect trace and the returned
`message_result`. -/
def finishStream (conv : String → String) (st : StreamLoopState) :
    List ChatEffect × String :=
  let responsesall := pyReplaceEot st.responsesall
  if 1900 < (responsesall ++ st.responses).length then
    (st.effects ++ [ChatEffect.send st.responses], st.message_result)
  else
    let responsesall2 := pyReplaceEot (responsesall ++ st.responses)
    (st.effects ++ [ChatEffect.edit (conv responsesall2)], st.message_result)

/-- How `gpt_message` can leave its `try/except/finally`:
either Python's `UnboundLocalError` (the `finally: thread.join()` at
line 192 reads `thread` although the failed `generate_response` call
never bound it), or `AttributeError` (`thread` was bound to `None` and
`None.join()` is called), or a normal return value. -/
inductive PyRunError where
  | unboundLocalError : PyRunError
  | attributeError : PyRunError
deriving DecidableEq, Repr

/-- Embedding of the `try/except/finally` of `gpt_message`
(sendmessage.py lines 155-192).  The generation call at line 159 is the
external `gpt.gemini_api.generate_response` (imported at line 27, not
part of this repository's sources); per the spec's provider contract it
returns a worker handle that may be `None` plus a fragment stream, or
raises.  `genOutcome` abstracts that call: `.error e` models the call
itself raising `e`; `.ok (hasThread, frags, tailErr)` models a returned
pair whose stream yields `frags` and then raises `tailErr` if present
(`hasThread = false` models `thread = None`).  The result is the
function's outcome — `.ok (some r)` a normal return of `message_result`,
`.ok none` the `return None` of the `except` branch, `.error` an
exception escaping through `finally` — paired with the effect trace. -/
def gpt_message (conv : String → String)
    (genOutcome : Except PyError (Bool × List String × Option PyError)) :
    Except PyRunError (Option String) × List ChatEffect :=
  match genOutcome with
  | Except.error _ =>
    (Except.error PyRunError.unboundLocalError, [ChatEffect.edit "抱歉，我不會講話了。"])
  | Except.ok (hasThread, frags, tailErr) =>
    let st := frags.foldl (processChunk conv) ⟨"", "", "", []⟩
    match tailErr with
    | some _ =>
      let effects := st.effects ++ [ChatEffect.edit "抱歉，我不會講話了。"]
      if hasThread then (Except.ok none, effects)
      else (Except.error PyRunError.attributeError, effects)
    | none =>
      let r := finishStream conv st
      if hasThread then (Except.ok (some r.2), r.1)
      else (Except.error PyRunError.attributeError, r.1)

theorem removeEotAux_id (l : List Char) (h : ∀ c ∈ l, c ≠ '<') :
    removeEotAux l = l := by
  induction l with
  | nil => simp [removeEotAux]
  | cons c rest ih =>
    rw [removeEotAux]
    have hc : c ≠ '<' := h c (by simp)
    have hp : eotPattern.isPrefixOf (c :: rest) = false := by
      show (('<' :: "|eot_id|>".data).isPrefixOf (c :: rest)) = false
      simp only [List.isPrefixOf]
      have : ('<' == c) = false := by
        cases hbe : ('<' == c) with
        | true => exact absurd (eq_of_beq hbe).symm hc
        | false => rfl
      simp [this]
    rw [if_neg (by simp [hp])]
    rw [ih (fun x hx => h x (by simp [hx]))]

/-- The apology text used by the `except` branch (line 189). -/
def apologyText : String := "抱歉，我不會講話了。"

/-- The invariant carried through the streaming loop: the pending
buffer stays below `buffer_size`, and every edit issued so far carried
at most 1900 characters (before script conversion, which the ceiling
theorem assumes non-expanding). -/
def EditsBounded (st : StreamLoopState) : Prop :=
  st.responses.length ≤ 39 ∧
  ∀ c : String, ChatEffect.edit c ∈ st.effects → c.length ≤ 1900

theorem processChunk_preserves (conv : String → String)
    (hconv : ∀ s : String, (conv s).length ≤ s.length)
    (st : StreamLoopState) (response : String)
    (hresp : response.length ≤ 1860) (hst : EditsBounded st) :
    EditsBounded (processChunk conv st response) := by
  obtain ⟨hbuf, hedits⟩ := hst
  rw [processChunk]
  by_cases h40 : buffer_size ≤ (st.responses ++ response).length
  · rw [if_pos h40]
    by_cases hov : 1900 < (st.responsesall ++ (st.responses ++ response)).length
    · rw [if_pos hov]
      constructor
      · simp
      · intro c hc
        simp only [List.append_assoc, List.mem_append, List.mem_singleton] at hc
        rcases hc with hc | hc
        · exact hedits c hc
        · rcases hc with hc | hc
          · cases hc
          · cases hc
            calc (conv (pyReplaceEot ("" ++ (st.responses ++ response)))).length
                ≤ (pyReplaceEot ("" ++ (st.responses ++ response))).length := hconv _
              _ ≤ ("" ++ (st.responses ++ response)).length := pyReplaceEot_length _
              _ ≤ 1900 := by
                  rw [String.empty_append, String.length_append]
                  omega
    · rw [if_neg hov]
      constructor
      · simp
      · intro c hc
        simp only [List.mem_append, List.mem_singleton] at hc
        rcases hc with hc | hc
        · exact hedits c hc
        · cases hc
          calc (conv (pyReplaceEot (st.responsesall ++ (st.responses ++ response)))).length
              ≤ (pyReplaceEot (st.responsesall ++ (st.responses ++ response))).length := hconv _
            _ ≤ (st.responsesall ++ (st.responses ++ response)).length := pyReplaceEot_length _
            _ ≤ 1900 := by omega
  · rw [if_neg h40]
    refine ⟨?_, hedits⟩
    show (st.responses ++ response).length ≤ 39
    have : (st.responses ++ response).length < buffer_size := Nat.lt_of_not_le h40
    rw [buffer_size] at this
    omega

theorem foldl_processChunk_preserves (conv : String → String)
    (hconv : ∀ s : String, (conv s).length ≤ s.length) (frags : List String) :
    ∀ st : StreamLoopState, EditsBounded st →
      (∀ f ∈ frags, f.length ≤ 1860) →
      EditsBounded (frags.foldl (processChunk conv) st) := by
  induction frags with
  | nil => intro st hst _; exact hst
  | cons f fs ih =>
    intro st hst hf
    rw [List.foldl_cons]
    exact ih (processChunk conv st f)
      (processChunk_preserves conv hconv st f (hf f (by simp)) hst)
      (fun x hx => hf x (by simp [hx]))

theorem gpt_message_ok_some_effects (conv : String → String) (hasThread : Bool)
    (frags : List String) (e : PyError) :
    (gpt_message conv (Except.ok (hasThread, frags, some e))).2 =
      (frags.foldl (processChunk conv) ⟨"", "", "", []⟩).effects ++
        [ChatEffect.edit "抱歉，我不會講話了。"] := by
  cases hasThread <;> rfl

theorem gpt_message_ok_none_effects (conv : String → String) (hasThread : Bool)
    (frags : List String) :
    (gpt_message conv (Except.ok (hasThread, frags, none))).2 =
      (finishStream conv (frags.foldl (processChunk conv) ⟨"", "", "", []⟩)).1 := by
  cases hasThread <;> rfl

/-- **C7, counterexample to the claim as stated.**  A single stream
fragment of 2100 `'a'`s makes the loop cross the ceiling check, start a
new output message — and then immediately edit that new message with
the whole 2100-character buffer, exceeding both the 1900-character
check and the platform's 2000-character limit.  The new-message branch
restarts accumulation but does not shrink the pending buffer, so a
single oversized fragment still produces an oversized edit. -/
theorem claim7_counterexample :
    ChatEffect.edit (String.mk (List.replicate 2100 'a')) ∈
      (gpt_message id (Except.ok
        (true, [String.mk (List.replicate 2100 'a')], none))).2 ∧
    2000 < (String.mk (List.replicate 2100 'a')).length := by
  have hrep : pyReplaceEot (String.mk (List.replicate 2100 'a')) =
      String.mk (List.replicate 2100 'a') := by
    show String.mk (removeEotAux (String.mk (List.replicate 2100 'a')).data) = _
    rw [show (String.mk (List.replicate 2100 'a')).data = List.replicate 2100 'a' from rfl]
    rw [removeEotAux_id _ (fun c hc => by
      rw [List.eq_of_mem_replicate hc]; decide)]
  have hlen : (String.mk (List.replicate 2100 'a')).length = 2100 := by
    rw [String.length_mk, List.length_replicate]
  constructor
  · rw [gpt_message_ok_none_effects]
    simp only [List.foldl_cons, List.foldl_nil]
    rw [show processChunk id ⟨"", "", "", []⟩ (String.mk (List.replicate 2100 'a')) =
        ⟨"", String.mk (List.replicate 2100 'a'),
          String.mk (List.replicate 2100 'a'),
          [ChatEffect.send "繼續輸出中...",
            ChatEffect.edit (String.mk (List.replicate 2100 'a'))]⟩ from by
      rw [processChunk]
      rw [if_pos (by rw [String.empty_append, hlen, buffer_size]; omega)]
      rw [if_pos (by rw [String.empty_append, String.empty_append, hlen]; omega)]
      simp only [String.empty_append, hrep, id_eq, List.nil_append, List.cons_append,
        List.singleton_append]]
    rw [finishStream]
    simp only [hrep]
    rw [if_pos (by rw [String.append_empty, hlen]; omega)]
    simp
  · rw [hlen]; omega

/-- **C7, amended.**  Whenever appending the pending buffer to the
accumulated text would push it past the 1900-character ceiling, the
loop sends a fresh `"繼續輸出中..."` message and restarts accumulation
from the pending buffer alone; consequently, *provided every stream
fragment is at most 1860 characters long and the script conversion
never lengthens its input*, no message edit — in the loop or in the
leftover handling — carries more than 1900 characters.  (Without the
fragment bound the restart branch can itself edit an oversized buffer,
as the counterexample shows.) -/
theorem claim7_ceiling (conv : String → String)
    (hconv : ∀ s : String, (conv s).length ≤ s.length) :
    (∀ (st : StreamLoopState) (response : String),
      buffer_size ≤ (st.responses ++ response).length →
      1900 < (st.responsesall ++ (st.responses ++ response)).length →
      (processChunk conv st response).effects =
        st.effects ++ [ChatEffect.send "繼續輸出中...",
          ChatEffect.edit (conv (pyReplaceEot (st.responses ++ response)))] ∧
      (processChunk conv st response).responsesall =
        pyReplaceEot (st.responses ++ response)) ∧
    (∀ (frags : List String) (hasThread : Bool) (tailErr : Option PyError),
      (∀ f ∈ frags, f.length ≤ 1860) →
      ∀ c : String,
        ChatEffect.edit c ∈
          (gpt_message conv (Except.ok (hasThread, frags, tailErr))).2 →
        c.length ≤ 1900) := by
  constructor
  · intro st response h40 hov
    rw [processChunk, if_pos h40, if_pos hov]
    constructor
    · simp [String.empty_append]
    · simp [String.empty_append]
  · intro frags hasThread tailErr hfrag c hc
    have hinv : EditsBounded (frags.foldl (processChunk conv) ⟨"", "", "", []⟩) := by
      refine foldl_processChunk_preserves conv hconv frags _ ?_ hfrag
      constructor
      · show ("" : String).length ≤ 39
        decide
      · intro x hx
        simp at hx
    set st := frags.foldl (processChunk conv) ⟨"", "", "", []⟩ with hst
    cases tailErr with
    | some e =>
      rw [gpt_message_ok_some_effects, ← hst] at hc
      simp only [List.mem_append, List.mem_singleton] at hc
      rcases hc with hc | hc
      · exact hinv.2 c hc
      · cases hc
        decide
    | none =>
      rw [gpt_message_ok_none_effects, ← hst] at hc
      rw [finishStream] at hc
      by_cases hov : 1900 < (pyReplaceEot st.responsesall ++ st.responses).length
      · rw [if_pos hov] at hc
        simp only [List.mem_append, List.mem_singleton] at hc
        rcases hc with hc | hc
        · exact hinv.2 c hc
        · cases hc
      · rw [if_neg hov] at hc
        simp only [List.mem_append, List.mem_singleton] at hc
        rcases hc with hc | hc
        · exact hinv.2 c hc
        · cases hc
          calc (conv (pyReplaceEot (pyReplaceEot st.responsesall ++ st.responses))).length
              ≤ (pyReplaceEot (pyReplaceEot st.responsesall ++ st.responses)).length := hconv _
            _ ≤ (pyReplaceEot st.responsesall ++ st.responses).length := pyReplaceEot_length _
            _ ≤ 1900 := Nat.le_of_not_lt hov

theorem claim7_witness :
    ((processChunk id
        ⟨String.mk (List.replicate 39 'x'), String.mk (List.replicate 1880 'y'), "", []⟩
        "0123456789012345678901234567890123456789").effects =
      [ChatEffect.send "繼續輸出中...",
        ChatEffect.edit (id (pyReplaceEot
          (String.mk (List.replicate 39 'x') ++
            "0123456789012345678901234567890123456789")))] ∧
     (processChunk id
        ⟨String.mk (List.replicate 39 'x'), String.mk (List.replicate 1880 'y'), "", []⟩
        "0123456789012345678901234567890123456789").responsesall =
      pyReplaceEot (String.mk (List.replicate 39 'x') ++
        "0123456789012345678901234567890123456789")) ∧
    (∀ c : String,
      ChatEffect.edit c ∈
        (gpt_message id (Except.ok (true, ["哈囉", "世界"], none))).2 →
      c.length ≤ 1900) := by
  constructor
  · have h := (claim7_ceiling id (fun s => le_rfl)).1
      ⟨String.mk (List.replicate 39 'x'), String.mk (List.replicate 1880 'y'), "", []⟩
      "0123456789012345678901234567890123456789"
      (by rw [buffer_size, String.length_append, String.length_mk,
        List.length_replicate]; decide)
      (by rw [String.length_append, String.length_append, String.length_mk,
        String.length_mk, List.length_replicate, List.length_replicate]; decide)
    exact ⟨by rw [h.1]; rfl, h.2⟩
  · exact (claim7_ceiling id (fun s => le_rfl)).2 ["哈囉", "世界"] true none (by decide)

/-- **C9, evaluated at the failing input.**  When the generation call
itself raises (here a `GeminiError`), the `except` branch does edit the
designated message to the fixed apology — but the `finally:
thread.join()` then reads the never-assigned local `thread`, raising
`UnboundLocalError`, which replaces the pending `return None`.  The
error therefore propagates to the caller instead of `None` being
returned, contradicting the claim's "returns None instead of
propagating". -/
theorem claim9_finally_raises :
    gpt_message id (Except.error ⟨ErrKind.geminiErr, "quota exceeded"⟩) =
      (Except.error PyRunError.unboundLocalError,
        [ChatEffect.edit "抱歉，我不會講話了。"]) ∧
    apologyText = "抱歉，我不會講話了。" := by
  exact ⟨rfl, rfl⟩

/-! ## `gpt/vqa.py` — uniform video-frame sampling and VQA ingestion -/

/-- `MAX_NUM_FRAMES = 16` (vqa.py line 24). -/
def MAX_NUM_FRAMES : Nat := 16

/-- The indices chosen by `uniform_sample` (vqa.py lines 38-41):
`int(i * gap + gap / 2)` with `gap = len(l) / n`.  In exact arithmetic
`i * (len / n) + (len / n) / 2 = (2 * i + 1) * len / (2 * n)`, and for a
non-negative value `int` is the floor, which for a rational with
natural numerator and denominator is natural division — the theorem
`uniform_sample_idx_eq_floor` below justifies this embedding. -/
def uniform_sample_idxs (len n : Nat) : List Nat :=
  (List.range n).map (fun i => (2 * i + 1) * len / (2 * n))

/-- `uniform_sample` (vqa.py lines 38-41): `[l[i] for i in idxs]`.
`getD` stands in for Python indexing; the in-bounds theorem shows the
default is never consulted in the `encode_video` use. -/
def uniform_sample {α : Type} [Inhabited α] (l : List α) (n : Nat) : List α :=
  (uniform_sample_idxs l.length n).map (fun i => l.getD i default)

/-- `frame_idx = [i for i in range(0, len(vr), sample_fps)]` (vqa.py
line 47): the per-second-sampled frame indices `0, fps, 2*fps, ...`
below `numFrames`; `range(0, N, s)` has `⌈N / s⌉` elements for `s > 0`. -/
def frame_idx_list (numFrames sample_fps : Nat) : List Nat :=
  List.range' 0 ((numFrames + sample_fps - 1) / sample_fps) sample_fps

/-- The index selection of `encode_video` (vqa.py lines 47-49): keep
`frame_idx` when it has at most `MAX_NUM_FRAMES` entries, otherwise
uniformly sample it down.  The subsequent decoding
(`vr.get_batch(frame_idx)`, PIL resizing) is external to this logic. -/
def encode_video_frame_idx (numFrames sample_fps : Nat) : List Nat :=
  let frame_idx := frame_idx_list numFrames sample_fps
  if MAX_NUM_FRAMES < frame_idx.length then uniform_sample frame_idx MAX_NUM_FRAMES
  else frame_idx

/-- The natural-division embedding agrees with the source's real
formula `int(i * gap + gap / 2)`, `gap = len / n`, on non-negative
values. -/
theorem uniform_sample_idx_eq_floor (len n i : Nat) (hn : 0 < n) :
    (2 * i + 1) * len / (2 * n) =
      Nat.floor ((i : ℚ) * ((len : ℚ) / (n : ℚ)) + ((len : ℚ) / (n : ℚ)) / 2) := by
  have hn' : ((n : ℚ)) ≠ 0 := by
    exact_mod_cast Nat.pos_iff_ne_zero.mp hn
  have h : (i : ℚ) * ((len : ℚ) / (n : ℚ)) + ((len : ℚ) / (n : ℚ)) / 2 =
      (((2 * i + 1) * len : ℕ) : ℚ) / (((2 * n : ℕ) : ℚ)) := by
    push_cast
    field_simp
    ring
  rw [h, Nat.floor_div_nat, Nat.floor_natCast]

/-- **C8.**  For `sample_fps > 0`: when the per-second-sampled index
list has at most `MAX_NUM_FRAMES = 16` entries, `encode_video` keeps
every sampled index; when it is longer, the result is
`uniform_sample frame_idx 16`, which has exactly 16 entries, whose
selection indices are all within bounds of `frame_idx`, and whose
`i`-th selection index is exactly `int(i * gap + gap / 2)` with
`gap = len(frame_idx) / 16`. -/
theorem claim8_frame_sampling (numFrames sample_fps : Nat)
    (_hfps : 0 < sample_fps) :
    ((frame_idx_list numFrames sample_fps).length ≤ MAX_NUM_FRAMES →
      encode_video_frame_idx numFrames sample_fps =
        frame_idx_list numFrames sample_fps) ∧
    (MAX_NUM_FRAMES < (frame_idx_list numFrames sample_fps).length →
      encode_video_frame_idx numFrames sample_fps =
        uniform_sample (frame_idx_list numFrames sample_fps) MAX_NUM_FRAMES ∧
      (uniform_sample (frame_idx_list numFrames sample_fps) MAX_NUM_FRAMES).length =
        MAX_NUM_FRAMES ∧
      (∀ j ∈ uniform_sample_idxs (frame_idx_list numFrames sample_fps).length
          MAX_NUM_FRAMES,
        j < (frame_idx_list numFrames sample_fps).length) ∧
      (∀ i : Nat, i < MAX_NUM_FRAMES →
        (uniform_sample_idxs (frame_idx_list numFrames sample_fps).length
            MAX_NUM_FRAMES).getD i 0 =
          Nat.floor ((i : ℚ) *
            (((frame_idx_list numFrames sample_fps).length : ℚ) / (MAX_NUM_FRAMES : ℚ)) +
            (((frame_idx_list numFrames sample_fps).length : ℚ) / (MAX_NUM_FRAMES : ℚ)) / 2))) := by
  constructor
  · intro h
    rw [encode_video_frame_idx, if_neg (by omega)]
  · intro h
    refine ⟨by rw [encode_video_frame_idx, if_pos (by omega)], ?_, ?_, ?_⟩
    · rw [uniform_sample, uniform_sample_idxs]
      simp [MAX_NUM_FRAMES]
    · intro j hj
      rw [uniform_sample_idxs] at hj
      obtain ⟨i, hi, hji⟩ := List.mem_map.mp hj
      have hi16 : i < 16 := by simpa [MAX_NUM_FRAMES] using List.mem_range.mp hi
      set len := (frame_idx_list numFrames sample_fps).length with hlen
      have hlpos : 0 < len := by rw [MAX_NUM_FRAMES] at h; omega
      rw [← hji]
      have h32 : (0 : Nat) < 2 * MAX_NUM_FRAMES := by rw [MAX_NUM_FRAMES]; omega
      rw [Nat.div_lt_iff_lt_mul h32]
      calc (2 * i + 1) * len ≤ 31 * len := by
            apply Nat.mul_le_mul_right
            omega
        _ < 32 * len := by
            apply Nat.mul_lt_mul_of_lt_of_le (by omega) le_rfl
            omega
        _ = len * (2 * MAX_NUM_FRAMES) := by rw [MAX_NUM_FRAMES]; ring
    · intro i hi
      have hgd : (uniform_sample_idxs (frame_idx_list numFrames sample_fps).length
          MAX_NUM_FRAMES).getD i 0 =
          (2 * i + 1) * (frame_idx_list numFrames sample_fps).length /
            (2 * MAX_NUM_FRAMES) := by
        rw [uniform_sample_idxs, List.getD, List.get?_map, List.get?_range
          (by simpa using hi)]
        rfl
      rw [hgd]
      exact uniform_sample_idx_eq_floor _ MAX_NUM_FRAMES i (by rw [MAX_NUM_FRAMES]; omega)

theorem claim8_witness :
    encode_video_frame_idx 10 2 = frame_idx_list 10 2 ∧
    encode_video_frame_idx 100 1 = uniform_sample (frame_idx_list 100 1) MAX_NUM_FRAMES ∧
    (uniform_sample (frame_idx_list 100 1) MAX_NUM_FRAMES).length = MAX_NUM_FRAMES ∧
    (∀ j ∈ uniform_sample_idxs (frame_idx_list 100 1).length MAX_NUM_FRAMES,
      j < (frame_idx_list 100 1).length) := by
  have h1 := (claim8_frame_sampling 10 2 (by decide)).1 (by decide)
  have h2 := (claim8_frame_sampling 100 1 (by decide)).2 (by decide)
  exact ⟨h1, h2.1, h2.2.1, h2.2.2.1⟩

/-- A chat attachment as seen by `vqa_answer`: its filename (used for
extension dispatch) and download URL. -/
structure Attachment where
  filename : String
  url : String
deriving DecidableEq, Repr

/-- Observable effects of `vqa_answer`: editing the designated message,
downloading an attachment, invoking the vision-language model's `chat`. -/
inductive VqaEffect where
  | edit : String → VqaEffect
  | httpGet : String → VqaEffect
  | vqaChat : VqaEffect
deriving DecidableEq, Repr

/-- Embedding of `vqa_answer` (vqa.py lines 66-144).  The external
decoding pipeline — extension classification into image/PDF/video,
PIL/pdf2image/decord decoding, resizing and size validation — is
abstracted by `imagesOf`, the number of valid standardized images each
attachment contributes (0 for unsupported formats and decode failures);
the external VQA model's answer and the joined `processed_files`
summary are the parameters `vqaResult` and `processedJoined`.  The
effect trace records the `message_to_edit.edit("我看看...")` (line 70),
the per-attachment `session.get(attachment.url)` downloads (line 81),
and the `global_VQA.chat(...)` call (line 120). -/
def vqa_answer (imagesOf : Attachment → Nat) (vqaResult processedJoined : String)
    (attachments : List Attachment) : String × List VqaEffect :=
  if attachments = [] then ("沒有收到任何附件。", [])
  else
    let effects := VqaEffect.edit "我看看..." ::
      attachments.map (fun a => VqaEffect.httpGet a.url)
    if (attachments.map imagesOf).sum = 0 then
      ("沒有找到可處理的圖像、影片或PDF附件，或處理過程中出現錯誤。", effects)
    else
      ("VQAresponse:'''" ++ vqaResult ++ "\n" ++
        ("\n\nData sorce:\n" ++ processedJoined) ++ "'''",
        effects ++ [VqaEffect.vqaChat])

/-- **C10.**  With no attachments, `vqa_answer` returns the fixed
`'沒有收到任何附件。'` string immediately, with an empty effect trace —
no edit of the designated message, no download, no VQA model call.  By
contrast, as soon as at least one attachment is present the
`"我看看..."` edit is emitted, so the empty trace is specific to the
empty case. -/
theorem claim10_no_attachments (imagesOf : Attachment → Nat)
    (vqaResult processedJoined : String) (attachments : List Attachment) :
    (attachments = [] →
      vqa_answer imagesOf vqaResult processedJoined attachments =
        ("沒有收到任何附件。", [])) ∧
    (attachments ≠ [] →
      VqaEffect.edit "我看看..." ∈
        (vqa_answer imagesOf vqaResult processedJoined attachments).2) := by
  constructor
  · intro h
    rw [vqa_answer, if_pos h]
  · intro h
    rw [vqa_answer, if_neg h]
    by_cases hz : (attachments.map imagesOf).sum = 0
    · rw [if_pos hz]
      simp
    · rw [if_neg hz]
      simp

theorem claim10_witness :
    vqa_answer (fun _ => 1) "回答" "圖片: cat.png" [] = ("沒有收到任何附件。", []) ∧
    VqaEffect.edit "我看看..." ∈
      (vqa_answer (fun _ => 1) "回答" "圖片: cat.png"
        [⟨"cat.png", "http://x/cat.png"⟩]).2 := by
  constructor
  · exact (claim10_no_attachments (fun _ => 1) "回答" "圖片: cat.png" []).1 rfl
  · exact (claim10_no_attachments (fun _ => 1) "回答" "圖片: cat.png"
      [⟨"cat.png", "http://x/cat.png"⟩]).2 (by simp)

end DiscordBot
